import Mathlib

/-!
Verification of the Tubbly balance-request program
(src/programs/tubbly/src/lib.rs, Anchor/Solana).

Shallow embedding: a `Pubkey` is a natural number, with `Pubkey.default`
(the all-zero key) modelled as `0`.  A `u64`/`u128` value is a `Nat`
below `U64_LIMIT`/`U128_LIMIT`; `checked_add` is `u64::checked_add`.
The persistent store is a `World`: the optional `State` singleton
(`seeds = [b"state"]`), the request account for each `req_id`
(`seeds = [b"request", req_id]`) and the user account for each identity
(`seeds = [b"user", caller]`).  Anchor's `init_if_needed` zero-initializes
an account on first use, so a never-touched account is indistinguishable
from a zeroed one and the two keyed stores are total maps defaulting to
the zeroed record.  Each instruction handler is a function
`World → args → Except Error (World × List Event)`; the host runtime
executes an instruction atomically and rolls the whole transaction back
on error, which `run` reflects by returning the unchanged world when the
handler fails.
-/

abbrev Pubkey := Nat

/-- `Pubkey::default()`, the all-zero public key. -/
def Pubkey.default : Pubkey := 0

/-- Number of values of a `u64`. -/
def U64_LIMIT : Nat := 2 ^ 64

/-- Number of values of a `u128`. -/
def U128_LIMIT : Nat := 2 ^ 128

/-- `u64::checked_add`: `none` exactly when the sum overflows a `u64`. -/
def checked_add (a b : Nat) : Option Nat :=
  if a + b < U64_LIMIT then some (a + b) else none

/-- The `State` account (`#[account] pub struct State`). -/
structure State where
  owner : Pubkey
  request_counter : Nat
deriving DecidableEq

/-- The `Request` account (`#[account] pub struct Request`). -/
structure Request where
  req_id : Nat
  caller : Pubkey
  balance : Nat
  is_active : Bool
deriving DecidableEq

/-- The `UserAccount` account (`#[account] pub struct UserAccount`). -/
structure UserAccount where
  owner : Pubkey
  balance : Nat
deriving DecidableEq

/-- A freshly allocated (zero-initialized) `Request` account. -/
def Request.zeroed : Request :=
  { req_id := 0, caller := Pubkey.default, balance := 0, is_active := false }

/-- A freshly allocated (zero-initialized) `UserAccount` account. -/
def UserAccount.zeroed : UserAccount :=
  { owner := Pubkey.default, balance := 0 }

/-- The `RequestData` return type of `get_request`. -/
structure RequestData where
  req_id : Nat
  caller : Pubkey
  balance : Nat
  is_active : Bool
deriving DecidableEq

/-- The program's `ErrorCode` enum, together with the two failure kinds
supplied by the Anchor storage layer: `AlreadyInitialized` is the `init`
constraint rejecting a second `Initialize` when the `State` account
already exists, and `AccountNotInitialized` is account resolution failing
because the required `State` account does not exist yet. -/
inductive Error where
  | NotOwner
  | RequestIdAlreadyUsed
  | IncorrectRequestId
  | NewOwnerIsZero
  | BalanceOverflow
  | AlreadyInitialized
  | AccountNotInitialized
deriving DecidableEq

/-- The program's events (`OwnershipChanged`, `Submission`, `Confirmation`). -/
inductive Event where
  | OwnershipChanged (prev_owner : Pubkey) (new_owner : Pubkey)
  | Submission (req_id : Nat) (caller : Pubkey) (amount : Nat)
  | Confirmation (req_id : Nat) (user : Pubkey) (amount : Nat)
deriving DecidableEq

/-- The persistent store: the optional `State` singleton and the two
lazily created keyed stores (request by id, user account by identity). -/
structure World where
  state : Option State
  requests : Nat → Request
  users : Pubkey → UserAccount

/-- The store before any instruction ran: no `State` account, every
other account still unallocated (= zeroed on first use). -/
def World.initial : World :=
  { state := none
    requests := fun _ => Request.zeroed
    users := fun _ => UserAccount.zeroed }

/-- The `initialize` entry point (renamed here because its source name is
a Lean keyword): creates the `State` account (failing with the storage
layer's already-in-use error when it exists), sets `owner` to the calling
signer, zeroes `request_counter` and emits `OwnershipChanged`. -/
def initializeProgram (w : World) (caller : Pubkey) : Except Error (World × List Event) :=
  match w.state with
  | some _ => .error .AlreadyInitialized
  | none =>
    .ok ({ w with state := some { owner := caller, request_counter := 0 } },
         [Event.OwnershipChanged Pubkey.default caller])

/-- `submit`: requires the request slot's `caller` field to be the
default pubkey, then activates the slot for the submitting signer and
emits `Submission`. -/
def submit (w : World) (user : Pubkey) (req_id : Nat) (amount : Nat) :
    Except Error (World × List Event) :=
  let request := w.requests req_id
  if request.caller = Pubkey.default then
    .ok ({ w with
            requests := fun id =>
              if id = req_id then
                { req_id := req_id, caller := user, balance := amount, is_active := true }
              else w.requests id },
         [Event.Submission req_id user amount])
  else
    .error .RequestIdAlreadyUsed

/-- `confirm`: owner-only; requires the request to be active, credits the
request's balance to the user account derived from `request.caller` with
`checked_add`, resets the request slot and emits `Confirmation` whose
`user` field is the user account's `owner` field. -/
def confirm (w : World) (owner : Pubkey) (req_id : Nat) :
    Except Error (World × List Event) :=
  match w.state with
  | none => .error .AccountNotInitialized
  | some state =>
    let request := w.requests req_id
    let user_account := w.users request.caller
    if owner = state.owner then
      if request.is_active then
        match checked_add user_account.balance request.balance with
        | none => .error .BalanceOverflow
        | some new_balance =>
          let amount := request.balance
          .ok ({ w with
                  users := fun u =>
                    if u = request.caller then
                      { user_account with balance := new_balance }
                    else w.users u,
                  requests := fun id =>
                    if id = req_id then
                      { request with is_active := false, balance := 0, caller := Pubkey.default }
                    else w.requests id },
               [Event.Confirmation req_id user_account.owner amount])
      else .error .IncorrectRequestId
    else .error .NotOwner

/-- `balance_of`: reads the balance of the self-addressed user account
(zero when the account was never credited). -/
def balance_of (w : World) (user : Pubkey) : Nat :=
  (w.users user).balance

/-- `get_request`: owner-only read of the request slot's full contents. -/
def get_request (w : World) (viewer : Pubkey) (req_id : Nat) :
    Except Error RequestData :=
  match w.state with
  | none => .error .AccountNotInitialized
  | some state =>
    let request := w.requests req_id
    if viewer = state.owner then
      .ok { req_id := request.req_id, caller := request.caller,
            balance := request.balance, is_active := request.is_active }
    else .error .NotOwner

/-- `change_ownership`: owner-only; rejects the default pubkey as the new
owner, otherwise installs it and emits `OwnershipChanged`. -/
def change_ownership (w : World) (current_owner : Pubkey) (new_owner : Pubkey) :
    Except Error (World × List Event) :=
  match w.state with
  | none => .error .AccountNotInitialized
  | some state =>
    if current_owner = state.owner then
      if new_owner ≠ Pubkey.default then
        .ok ({ w with state := some { state with owner := new_owner } },
             [Event.OwnershipChanged state.owner new_owner])
      else .error .NewOwnerIsZero
    else .error .NotOwner

/-- One invocation of one of the six entry points, with its caller. -/
inductive Op where
  | initializeProgram (caller : Pubkey)
  | submit (caller : Pubkey) (req_id : Nat) (amount : Nat)
  | confirm (caller : Pubkey) (req_id : Nat)
  | balance_of (user : Pubkey)
  | get_request (viewer : Pubkey) (req_id : Nat)
  | change_ownership (caller : Pubkey) (new_owner : Pubkey)

/-- Dispatch an operation to its handler.  The two read-only entry
points never change the world; `get_request` still reports its
owner-gate error. -/
def exec (w : World) : Op → Except Error (World × List Event)
  | .initializeProgram caller => initializeProgram w caller
  | .submit caller req_id amount => submit w caller req_id amount
  | .confirm caller req_id => confirm w caller req_id
  | .balance_of _ => .ok (w, [])
  | .get_request viewer req_id =>
    match get_request w viewer req_id with
    | .ok _ => .ok (w, [])
    | .error e => .error e
  | .change_ownership caller new_owner => change_ownership w caller new_owner

/-- The error of a handler result, if any. -/
def errOf {α : Type} : Except Error α → Option Error
  | .ok _ => none
  | .error e => some e

/-- Host-runtime semantics of one transaction: on success the new world
and the emitted events, on any error a full rollback (unchanged world,
no events) and the surfaced error kind. -/
def run (w : World) (op : Op) : World × List Event × Option Error :=
  match exec w op with
  | .ok (w2, evs) => (w2, evs, none)
  | .error e => (w, [], some e)

/-- The world after one transaction (the rollback applied on failure). -/
def step (w : World) (op : Op) : World :=
  (run w op).1

/-- Which invocations the host runtime can deliver: every signer is an
authenticated identity, and the all-zero pubkey has no signing key, so
`Signer`-constrained callers are never `Pubkey.default`; instruction
arguments carry their Rust integer types (`req_id : u128`,
`amount : u64`).  `change_ownership`'s `new_owner` is a plain
`AccountInfo`, not a signer, so it is unconstrained. -/
def Op.valid : Op → Prop
  | .initializeProgram caller => caller ≠ Pubkey.default
  | .submit caller req_id amount =>
    caller ≠ Pubkey.default ∧ req_id < U128_LIMIT ∧ amount < U64_LIMIT
  | .confirm caller req_id => caller ≠ Pubkey.default ∧ req_id < U128_LIMIT
  | .balance_of _ => True
  | .get_request _ req_id => req_id < U128_LIMIT
  | .change_ownership caller _ => caller ≠ Pubkey.default

/-- The worlds reachable from the empty store by valid transactions
(failed transactions roll back, so including them changes nothing). -/
inductive Reachable : World → Prop where
  | init : Reachable World.initial
  | step {w : World} {op : Op} : Reachable w → Op.valid op → Reachable (step w op)

/-! ### Concrete worlds used by witnesses -/

/-- World after `initialize` by identity `1`. -/
def Wa : World := step World.initial (Op.initializeProgram 1)

/-- World after `initialize(1)` then `submit(2, req_id 7, amount 100)`. -/
def Wb : World := step Wa (Op.submit 2 7 100)

lemma reachable_Wa : Reachable Wa :=
  Reachable.step Reachable.init (show (1 : Pubkey) ≠ Pubkey.default by decide)

lemma reachable_Wb : Reachable Wb :=
  Reachable.step reachable_Wa ⟨by decide, by decide, by decide⟩

/-! ### Basic facts about `run` and `step` -/

lemma step_of_error {w : World} {op : Op} {e : Error}
    (h : exec w op = .error e) : step w op = w := by
  simp [step, run, h]

lemma step_of_ok {w w' : World} {op : Op} {evs : List Event}
    (h : exec w op = .ok (w', evs)) : step w op = w' := by
  simp [step, run, h]

lemma errOf_eq_none {α : Type} {r : Except Error α} :
    errOf r = none ↔ ∃ a, r = .ok a := by
  cases r <;> simp [errOf]

/-! ### C4, C7, C6, C8: the direct error-handling properties -/

/-- C4: for every caller, invoking `initialize` when the GlobalState
singleton already exists fails with `AlreadyInitialized` and leaves the
existing owner unchanged. -/
theorem reinitialize_fails (w : World) (st : State) (c : Pubkey)
    (hst : w.state = some st) :
    errOf (exec w (Op.initializeProgram c)) = some Error.AlreadyInitialized ∧
    (step w (Op.initializeProgram c)).state = some st := by
  have h : exec w (Op.initializeProgram c) = .error .AlreadyInitialized := by
    simp [exec, initializeProgram, hst]
  exact ⟨by simp [h, errOf], by rw [step_of_error h, hst]⟩

theorem reinitialize_fails_witness :
    errOf (exec Wa (Op.initializeProgram 4)) = some Error.AlreadyInitialized ∧
    (step Wa (Op.initializeProgram 4)).state = some { owner := 1, request_counter := 0 } :=
  reinitialize_fails Wa { owner := 1, request_counter := 0 } 4 (by decide)

/-- C7: for every active request and every caller that is not the current
owner, `confirm` fails with `NotOwner` and leaves the whole store (user
balances and the request slot) unchanged. -/
theorem confirm_nonowner_fails (w : World) (st : State) (c : Pubkey) (id : Nat)
    (hst : w.state = some st) (hact : (w.requests id).is_active = true)
    (hc : c ≠ st.owner) :
    errOf (exec w (Op.confirm c id)) = some Error.NotOwner ∧
    step w (Op.confirm c id) = w := by
  have h : exec w (Op.confirm c id) = .error .NotOwner := by
    simp [exec, confirm, hst, hc]
  exact ⟨by simp [h, errOf], step_of_error h⟩

theorem confirm_nonowner_fails_witness :
    errOf (exec Wb (Op.confirm 9 7)) = some Error.NotOwner ∧
    step Wb (Op.confirm 9 7) = Wb :=
  confirm_nonowner_fails Wb { owner := 1, request_counter := 0 } 9 7
    (by decide) (by decide) (by decide)

/-- C6: a submit on an available slot followed by a second submit with the
same `req_id` (before any confirmation) has the first succeed, the second
fail with `RequestIdAlreadyUsed`, and the first submission's stored data
(caller, balance, is_active) survive the failed second submit. -/
theorem double_submit (w : World) (c1 c2 : Pubkey) (id a1 a2 : Nat)
    (havail : (w.requests id).caller = Pubkey.default)
    (hc1 : c1 ≠ Pubkey.default) :
    errOf (exec w (Op.submit c1 id a1)) = none ∧
    errOf (exec (step w (Op.submit c1 id a1)) (Op.submit c2 id a2)) =
      some Error.RequestIdAlreadyUsed ∧
    (step (step w (Op.submit c1 id a1)) (Op.submit c2 id a2)).requests id =
      { req_id := id, caller := c1, balance := a1, is_active := true } := by
  have h1 : exec w (Op.submit c1 id a1) =
      .ok ({ w with requests := fun i =>
               if i = id then { req_id := id, caller := c1, balance := a1, is_active := true }
               else w.requests i },
            [Event.Submission id c1 a1]) := by
    simp [exec, submit, havail]
  have hreq : (step w (Op.submit c1 id a1)).requests id =
      { req_id := id, caller := c1, balance := a1, is_active := true } := by
    rw [step_of_ok h1]; simp
  have h2 : exec (step w (Op.submit c1 id a1)) (Op.submit c2 id a2) =
      .error .RequestIdAlreadyUsed := by
    simp [exec, submit, hreq, hc1]
  refine ⟨by simp [h1, errOf], by simp [h2, errOf], ?_⟩
  rw [step_of_error h2, hreq]

theorem double_submit_witness :
    errOf (exec Wa (Op.submit 2 7 100)) = none ∧
    errOf (exec (step Wa (Op.submit 2 7 100)) (Op.submit 5 7 3)) =
      some Error.RequestIdAlreadyUsed ∧
    (step (step Wa (Op.submit 2 7 100)) (Op.submit 5 7 3)).requests 7 =
      { req_id := 7, caller := 2, balance := 100, is_active := true } :=
  double_submit Wa 2 5 7 100 3 (by decide) (by decide)

/-- C8: `change_ownership` by the current owner to the zero identity fails
with `NewOwnerIsZero` leaving the owner unchanged; by the current owner to
a non-zero identity it installs the new owner and emits the
`OwnershipChanged` record with the previous and new owner. -/
theorem change_ownership_spec (w : World) (st : State) (n : Pubkey)
    (hst : w.state = some st) (hn : n ≠ Pubkey.default) :
    (errOf (exec w (Op.change_ownership st.owner Pubkey.default)) =
       some Error.NewOwnerIsZero ∧
     (step w (Op.change_ownership st.owner Pubkey.default)).state = some st) ∧
    exec w (Op.change_ownership st.owner n) =
      .ok ({ w with state := some { owner := n, request_counter := st.request_counter } },
           [Event.OwnershipChanged st.owner n]) := by
  have h0 : exec w (Op.change_ownership st.owner Pubkey.default) =
      .error .NewOwnerIsZero := by
    simp [exec, change_ownership, hst]
  refine ⟨⟨by simp [h0, errOf], by rw [step_of_error h0, hst]⟩, ?_⟩
  simp [exec, change_ownership, hst, hn]

theorem change_ownership_spec_witness :
    (errOf (exec Wa (Op.change_ownership 1 Pubkey.default)) =
       some Error.NewOwnerIsZero ∧
     (step Wa (Op.change_ownership 1 Pubkey.default)).state =
       some { owner := 1, request_counter := 0 }) ∧
    exec Wa (Op.change_ownership 1 3) =
      .ok ({ Wa with state := some { owner := 3, request_counter := 0 } },
           [Event.OwnershipChanged 1 3]) :=
  change_ownership_spec Wa { owner := 1, request_counter := 0 } 3 (by decide) (by decide)

/-! ### The `confirm` success path -/

lemma checked_add_some {a b nb : Nat} (h : checked_add a b = some nb) :
    nb = a + b ∧ a + b < U64_LIMIT := by
  unfold checked_add at h
  split at h
  · cases h; exact ⟨rfl, by assumption⟩
  · cases h

lemma checked_add_of_lt {a b : Nat} (h : a + b < U64_LIMIT) :
    checked_add a b = some (a + b) := by
  simp [checked_add, h]

/-- What a successful `confirm` by the owner does to the store, spelled
out: the user account at the request's caller is credited, the request
slot at `req_id` is reset, and `Confirmation` is emitted with the user
account's `owner` field. -/
lemma confirm_ok_eq (w : World) (st : State) (id : Nat) (nb : Nat)
    (hst : w.state = some st) (hact : (w.requests id).is_active = true)
    (hadd : checked_add (w.users (w.requests id).caller).balance
              (w.requests id).balance = some nb) :
    exec w (Op.confirm st.owner id) =
      .ok ({ w with
              users := fun u =>
                if u = (w.requests id).caller then
                  { w.users (w.requests id).caller with balance := nb }
                else w.users u,
              requests := fun i =>
                if i = id then
                  { w.requests id with is_active := false, balance := 0, caller := Pubkey.default }
                else w.requests i },
           [Event.Confirmation id (w.users (w.requests id).caller).owner
              (w.requests id).balance]) := by
  simp [exec, confirm, hst, hact, hadd]

lemma submit_ok_errOf (w : World) (c : Pubkey) (id a : Nat)
    (h : (w.requests id).caller = Pubkey.default) :
    errOf (exec w (Op.submit c id a)) = none := by
  simp [exec, submit, h, errOf]

/-! ### C1 (corrected), C2, C5: confirmation by the owner -/

/-- C1 (amended): for every active request whose credit fits in a `u64`,
a single `confirm` by the current owner succeeds, increases the
`UserAccount` balance of the request's caller by exactly the request's
balance, resets the request slot to available, and a subsequent `submit`
with the same `req_id` succeeds again. -/
theorem confirm_credits_and_frees (w : World) (st : State) (id : Nat)
    (hst : w.state = some st) (hact : (w.requests id).is_active = true)
    (hnof : (w.users (w.requests id).caller).balance + (w.requests id).balance
              < U64_LIMIT) :
    errOf (exec w (Op.confirm st.owner id)) = none ∧
    balance_of (step w (Op.confirm st.owner id)) (w.requests id).caller =
      balance_of w (w.requests id).caller + (w.requests id).balance ∧
    (step w (Op.confirm st.owner id)).requests id =
      { req_id := (w.requests id).req_id, caller := Pubkey.default,
        balance := 0, is_active := false } ∧
    ∀ c a, errOf (exec (step w (Op.confirm st.owner id)) (Op.submit c id a)) = none := by
  have h := confirm_ok_eq w st id _ hst hact (checked_add_of_lt hnof)
  have hw := step_of_ok h
  refine ⟨by simp [h, errOf], ?_, ?_, ?_⟩
  · rw [hw]; simp [balance_of]
  · rw [hw]; simp
  · intro c a
    refine submit_ok_errOf _ c id a ?_
    rw [hw]; simp

theorem confirm_credits_and_frees_witness :
    errOf (exec Wb (Op.confirm 1 7)) = none ∧
    balance_of (step Wb (Op.confirm 1 7)) 2 = balance_of Wb 2 + 100 ∧
    (step Wb (Op.confirm 1 7)).requests 7 =
      { req_id := 7, caller := Pubkey.default, balance := 0, is_active := false } ∧
    errOf (exec (step Wb (Op.confirm 1 7)) (Op.submit 5 7 3)) = none := by
  have h := confirm_credits_and_frees Wb { owner := 1, request_counter := 0 } 7
    (by decide) (by decide) (by decide)
  exact ⟨h.1, h.2.1, h.2.2.1, h.2.2.2 5 3⟩

/-- C1 counterexample: a reachable store with an active request (id 8,
caller 2, balance 1) and owner 1, where `confirm` by the owner does not
credit the caller's balance: the credit would overflow `u64`, so the
operation fails with `BalanceOverflow` instead. -/
def Wover : World :=
  step (step (step (step World.initial (Op.initializeProgram 1))
    (Op.submit 2 7 (U64_LIMIT - 1))) (Op.confirm 1 7)) (Op.submit 2 8 1)

theorem confirm_credits_counterexample :
    Wover.state = some { owner := 1, request_counter := 0 } ∧
    Wover.requests 8 = { req_id := 8, caller := 2, balance := 1, is_active := true } ∧
    balance_of Wover 2 = U64_LIMIT - 1 ∧
    errOf (exec Wover (Op.confirm 1 8)) = some Error.BalanceOverflow ∧
    balance_of (step Wover (Op.confirm 1 8)) 2 = U64_LIMIT - 1 := by
  exact ⟨by decide, by decide, by decide, by decide, by decide⟩

/-- C2: for every active request whose credit would overflow `u64`,
`confirm` by the owner fails with `BalanceOverflow` and the whole store is
unchanged (request still active with caller and balance intact, user
balance untouched). -/
theorem confirm_overflow_fails (w : World) (st : State) (id : Nat)
    (hst : w.state = some st) (hact : (w.requests id).is_active = true)
    (hov : U64_LIMIT ≤ (w.users (w.requests id).caller).balance +
             (w.requests id).balance) :
    errOf (exec w (Op.confirm st.owner id)) = some Error.BalanceOverflow ∧
    step w (Op.confirm st.owner id) = w := by
  have hadd : checked_add (w.users (w.requests id).caller).balance
      (w.requests id).balance = none := by
    simp [checked_add, Nat.not_lt.mpr hov]
  have h : exec w (Op.confirm st.owner id) = .error .BalanceOverflow := by
    simp [exec, confirm, hst, hact, hadd]
  exact ⟨by simp [h, errOf], step_of_error h⟩

/-- A store whose user account 2 already holds the maximal `u64` balance,
with an active request crediting 1 more to identity 2. -/
def Wmax : World :=
  { state := some { owner := 1, request_counter := 0 }
    requests := fun i =>
      if i = 7 then { req_id := 7, caller := 2, balance := 1, is_active := true }
      else Request.zeroed
    users := fun u =>
      if u = 2 then { owner := Pubkey.default, balance := U64_LIMIT - 1 }
      else UserAccount.zeroed }

theorem confirm_overflow_fails_witness :
    errOf (exec Wmax (Op.confirm 1 7)) = some Error.BalanceOverflow ∧
    step Wmax (Op.confirm 1 7) = Wmax := by
  have h := confirm_overflow_fails Wmax { owner := 1, request_counter := 0 } 7
    (by decide) (by decide) (by decide)
  exact ⟨h.1, h.2⟩

/-- C5 (amended): for every active request whose credit fits in a `u64`,
`confirm` twice in a row by the owner on the same `req_id` succeeds the
first time, fails the second time with `IncorrectRequestId`, and the
caller's balance is credited exactly once. -/
theorem confirm_twice (w : World) (st : State) (id : Nat)
    (hst : w.state = some st) (hact : (w.requests id).is_active = true)
    (hnof : (w.users (w.requests id).caller).balance + (w.requests id).balance
              < U64_LIMIT) :
    errOf (exec w (Op.confirm st.owner id)) = none ∧
    errOf (exec (step w (Op.confirm st.owner id)) (Op.confirm st.owner id)) =
      some Error.IncorrectRequestId ∧
    balance_of (step (step w (Op.confirm st.owner id)) (Op.confirm st.owner id))
        (w.requests id).caller =
      balance_of w (w.requests id).caller + (w.requests id).balance := by
  have h := confirm_ok_eq w st id _ hst hact (checked_add_of_lt hnof)
  have hw := step_of_ok h
  have hstate1 : (step w (Op.confirm st.owner id)).state = some st := by
    rw [hw]; exact hst
  have hreq1 : ((step w (Op.confirm st.owner id)).requests id).is_active = false := by
    rw [hw]; simp
  have h2 : exec (step w (Op.confirm st.owner id)) (Op.confirm st.owner id) =
      .error .IncorrectRequestId := by
    simp [exec, confirm, hstate1, hreq1]
  refine ⟨by simp [h, errOf], by simp [h2, errOf], ?_⟩
  rw [step_of_error h2, hw]; simp [balance_of]

theorem confirm_twice_witness :
    errOf (exec Wb (Op.confirm 1 7)) = none ∧
    errOf (exec (step Wb (Op.confirm 1 7)) (Op.confirm 1 7)) =
      some Error.IncorrectRequestId ∧
    balance_of (step (step Wb (Op.confirm 1 7)) (Op.confirm 1 7)) 2 =
      balance_of Wb 2 + 100 := by
  have h := confirm_twice Wb { owner := 1, request_counter := 0 } 7
    (by decide) (by decide) (by decide)
  exact ⟨h.1, h.2.1, h.2.2⟩

/-- C5 counterexample: at the reachable store `Wover` (active request 8,
owner 1, credit would overflow), the first of two back-to-back owner
confirms does not succeed, and the second fails with `BalanceOverflow`
rather than `IncorrectRequestId`. -/
theorem confirm_twice_counterexample :
    Wover.requests 8 = { req_id := 8, caller := 2, balance := 1, is_active := true } ∧
    Wover.state = some { owner := 1, request_counter := 0 } ∧
    errOf (exec Wover (Op.confirm 1 8)) = some Error.BalanceOverflow ∧
    errOf (exec (step Wover (Op.confirm 1 8)) (Op.confirm 1 8)) ≠
      some Error.IncorrectRequestId := by
  exact ⟨by decide, by decide, by decide, by decide⟩

/-! ### Decomposition of `step`: what one transaction can do to the
user-account store and to the request store -/

lemma step_eq_of_not_ok {w : World} {op : Op}
    (h : ∀ r : World × List Event, exec w op ≠ .ok r) : step w op = w := by
  unfold step run
  cases hx : exec w op with
  | ok r => exact absurd hx (h r)
  | error e => rfl

/-- Any transaction either leaves the user-account store unchanged or
credits a single user account (the request's caller during a successful
`confirm`) by some amount. -/
lemma step_users_cases (w : World) (op : Op) :
    (step w op).users = w.users ∨
    ∃ t add, (step w op).users = fun u =>
      if u = t then { w.users t with balance := (w.users t).balance + add }
      else w.users u := by
  cases op with
  | initializeProgram c =>
    left
    cases hs : w.state with
    | none =>
      have h : exec w (Op.initializeProgram c) =
          .ok ({ w with state := some { owner := c, request_counter := 0 } },
               [Event.OwnershipChanged Pubkey.default c]) := by
        simp [exec, initializeProgram, hs]
      rw [step_of_ok h]
    | some st =>
      rw [step_eq_of_not_ok (by simp [exec, initializeProgram, hs])]
  | submit c id a =>
    left
    by_cases hc : (w.requests id).caller = Pubkey.default
    · have h : exec w (Op.submit c id a) =
          .ok ({ w with requests := fun i =>
                   if i = id then { req_id := id, caller := c, balance := a, is_active := true }
                   else w.requests i },
                [Event.Submission id c a]) := by
        simp [exec, submit, hc]
      rw [step_of_ok h]
    · rw [step_eq_of_not_ok (by simp [exec, submit, hc])]
  | confirm c id =>
    cases hs : w.state with
    | none =>
      left
      rw [step_eq_of_not_ok (by simp [exec, confirm, hs])]
    | some st =>
      by_cases ho : c = st.owner
      · by_cases ha : (w.requests id).is_active = true
        · cases hadd : checked_add (w.users (w.requests id).caller).balance
              (w.requests id).balance with
          | none =>
            left
            rw [step_eq_of_not_ok (by simp [exec, confirm, hs, ho, ha, hadd])]
          | some nb =>
            right
            obtain ⟨hnb, _⟩ := checked_add_some hadd
            subst ho
            rw [step_of_ok (confirm_ok_eq w st id nb hs ha hadd)]
            exact ⟨(w.requests id).caller, (w.requests id).balance, by rw [hnb]⟩
        · left
          rw [step_eq_of_not_ok (by simp [exec, confirm, hs, ho, ha])]
      · left
        rw [step_eq_of_not_ok (by simp [exec, confirm, hs, ho])]
  | balance_of u =>
    left
    have h : exec w (Op.balance_of u) = .ok (w, []) := by simp [exec]
    rw [step_of_ok h]
  | get_request v id =>
    left
    cases hs : w.state with
    | none =>
      rw [step_eq_of_not_ok (by simp [exec, get_request, hs])]
    | some st =>
      by_cases hv : v = st.owner
      · have h : exec w (Op.get_request v id) = .ok (w, []) := by
          simp [exec, get_request, hs, hv]
        rw [step_of_ok h]
      · rw [step_eq_of_not_ok (by simp [exec, get_request, hs, hv])]
  | change_ownership c n =>
    left
    cases hs : w.state with
    | none =>
      rw [step_eq_of_not_ok (by simp [exec, change_ownership, hs])]
    | some st =>
      by_cases ho : c = st.owner
      · by_cases hn : n = Pubkey.default
        · rw [step_eq_of_not_ok (by simp [exec, change_ownership, hs, ho, hn])]
        · have h : exec w (Op.change_ownership c n) =
              .ok ({ w with state := some { owner := n, request_counter := st.request_counter } },
                   [Event.OwnershipChanged st.owner n]) := by
            simp [exec, change_ownership, hs, ho, hn]
          rw [step_of_ok h]
      · rw [step_eq_of_not_ok (by simp [exec, change_ownership, hs, ho])]

/-- Any valid transaction either leaves the request store unchanged,
activates one available slot (a successful `submit` by a non-zero
signer), or resets one active slot (a successful `confirm`). -/
lemma step_requests_cases (w : World) (op : Op) (hv : op.valid) :
    (step w op).requests = w.requests ∨
    (∃ c id a, op = Op.submit c id a ∧
      (w.requests id).caller = Pubkey.default ∧ c ≠ Pubkey.default ∧
      (step w op).requests = fun i =>
        if i = id then { req_id := id, caller := c, balance := a, is_active := true }
        else w.requests i) ∨
    (∃ c id, op = Op.confirm c id ∧ (w.requests id).is_active = true ∧
      (step w op).requests = fun i =>
        if i = id then { req_id := (w.requests id).req_id, caller := Pubkey.default,
                         balance := 0, is_active := false }
        else w.requests i) := by
  cases op with
  | initializeProgram c =>
    left
    cases hs : w.state with
    | none =>
      have h : exec w (Op.initializeProgram c) =
          .ok ({ w with state := some { owner := c, request_counter := 0 } },
               [Event.OwnershipChanged Pubkey.default c]) := by
        simp [exec, initializeProgram, hs]
      rw [step_of_ok h]
    | some st =>
      rw [step_eq_of_not_ok (by simp [exec, initializeProgram, hs])]
  | submit c id a =>
    by_cases hc : (w.requests id).caller = Pubkey.default
    · right; left
      refine ⟨c, id, a, rfl, hc, hv.1, ?_⟩
      have h : exec w (Op.submit c id a) =
          .ok ({ w with requests := fun i =>
                   if i = id then { req_id := id, caller := c, balance := a, is_active := true }
                   else w.requests i },
                [Event.Submission id c a]) := by
        simp [exec, submit, hc]
      rw [step_of_ok h]
    · left
      rw [step_eq_of_not_ok (by simp [exec, submit, hc])]
  | confirm c id =>
    cases hs : w.state with
    | none =>
      left
      rw [step_eq_of_not_ok (by simp [exec, confirm, hs])]
    | some st =>
      by_cases ho : c = st.owner
      · by_cases ha : (w.requests id).is_active = true
        · cases hadd : checked_add (w.users (w.requests id).caller).balance
              (w.requests id).balance with
          | none =>
            left
            rw [step_eq_of_not_ok (by simp [exec, confirm, hs, ho, ha, hadd])]
          | some nb =>
            right; right
            refine ⟨c, id, rfl, ha, ?_⟩
            subst ho
            rw [step_of_ok (confirm_ok_eq w st id nb hs ha hadd)]
        · left
          rw [step_eq_of_not_ok (by simp [exec, confirm, hs, ho, ha])]
      · left
        rw [step_eq_of_not_ok (by simp [exec, confirm, hs, ho])]
  | balance_of u =>
    left
    have h : exec w (Op.balance_of u) = .ok (w, []) := by simp [exec]
    rw [step_of_ok h]
  | get_request v id =>
    left
    cases hs : w.state with
    | none =>
      rw [step_eq_of_not_ok (by simp [exec, get_request, hs])]
    | some st =>
      by_cases hov : v = st.owner
      · have h : exec w (Op.get_request v id) = .ok (w, []) := by
          simp [exec, get_request, hs, hov]
        rw [step_of_ok h]
      · rw [step_eq_of_not_ok (by simp [exec, get_request, hs, hov])]
  | change_ownership c n =>
    left
    cases hs : w.state with
    | none =>
      rw [step_eq_of_not_ok (by simp [exec, change_ownership, hs])]
    | some st =>
      by_cases ho : c = st.owner
      · by_cases hn : n = Pubkey.default
        · rw [step_eq_of_not_ok (by simp [exec, change_ownership, hs, ho, hn])]
        · have h : exec w (Op.change_ownership c n) =
              .ok ({ w with state := some { owner := n, request_counter := st.request_counter } },
                   [Event.OwnershipChanged st.owner n]) := by
            simp [exec, change_ownership, hs, ho, hn]
          rw [step_of_ok h]
      · rw [step_eq_of_not_ok (by simp [exec, change_ownership, hs, ho])]

/-! ### C10, C3, C9: global invariants -/

/-- C10: for every identity and every operation (initialize, submit,
confirm, balance_of, get_request, change_ownership), whether the
operation succeeds or fails, the identity's `UserAccount` balance after
the transaction is at least its balance before: balances only grow. -/
theorem balances_monotone (w : World) (op : Op) (u : Pubkey) :
    balance_of w u ≤ balance_of (step w op) u := by
  rcases step_users_cases w op with h | ⟨t, add, h⟩
  · simp [balance_of, h]
  · simp only [balance_of, h]
    by_cases hu : u = t
    · subst hu; simp
    · simp [hu]

/-- The event list of a successful `confirm` is a single `Confirmation`
carrying the user account's stored `owner` field and the request's
balance. -/
lemma confirm_ok_events (w : World) (c : Pubkey) (id : Nat)
    (r : World × List Event) (h : exec w (Op.confirm c id) = .ok r) :
    r.2 = [Event.Confirmation id (w.users (w.requests id).caller).owner
             (w.requests id).balance] := by
  simp only [exec] at h
  unfold confirm at h
  split at h
  · exact absurd h (by simp)
  · simp only at h
    split at h
    · split at h
      · split at h
        · exact absurd h (by simp)
        · injection h with h2
          rw [← h2]
      · exact absurd h (by simp)
    · exact absurd h (by simp)

/-- C3: no operation ever writes the `UserAccount.owner` field: it is
framed by every transaction, it is the zero identity in every reachable
store (the value `init_if_needed` zero-initialization gave it), and
consequently the `Confirmation` event of every successful confirm in a
reachable store carries the zero identity as its `user`, not the
submitting caller. -/
theorem user_account_owner_never_written :
    (∀ w op u, ((step w op).users u).owner = (w.users u).owner) ∧
    (∀ w, Reachable w → ∀ u, (w.users u).owner = Pubkey.default) ∧
    (∀ w c id r, Reachable w → exec w (Op.confirm c id) = .ok r →
      r.2 = [Event.Confirmation id Pubkey.default (w.requests id).balance]) := by
  have howner : ∀ w op u, ((step w op).users u).owner = (w.users u).owner := by
    intro w op u
    rcases step_users_cases w op with h | ⟨t, add, h⟩
    · rw [h]
    · simp only [h]
      by_cases hu : u = t
      · subst hu; simp
      · simp [hu]
  have hzero : ∀ w, Reachable w → ∀ u, (w.users u).owner = Pubkey.default := by
    intro w h
    induction h with
    | init => intro u; rfl
    | step hr hv ih => intro u; rw [howner]; exact ih u
  refine ⟨howner, hzero, ?_⟩
  intro w c id r hreach hok
  rw [confirm_ok_events w c id r hok, hzero w hreach]

theorem user_account_owner_never_written_witness :
    ((step Wb (Op.change_ownership 1 3)).users 5).owner = (Wb.users 5).owner ∧
    (Wb.users 2).owner = Pubkey.default ∧
    (run Wb (Op.confirm 1 7)).2.1 = [Event.Confirmation 7 Pubkey.default 100] := by
  have h := user_account_owner_never_written
  refine ⟨h.1 Wb (Op.change_ownership 1 3) 5, h.2.1 Wb reachable_Wb 2, ?_⟩
  have hok : errOf (exec Wb (Op.confirm 1 7)) = none := by decide
  rw [errOf_eq_none] at hok
  obtain ⟨r, hr⟩ := hok
  have hev := h.2.2 Wb 1 7 r reachable_Wb hr
  have : (run Wb (Op.confirm 1 7)).2.1 = r.2 := by
    simp [run, hr]
  rw [this, hev]; decide

/-- The availability invariant: in every reachable store, a request
slot's `caller` is the zero identity exactly when the slot is inactive
with zero balance. -/
lemma avail_inv (w : World) (hr : Reachable w) (id : Nat) :
    (w.requests id).caller = Pubkey.default ↔
      ((w.requests id).is_active = false ∧ (w.requests id).balance = 0) := by
  induction hr with
  | init => simp [World.initial, Request.zeroed]
  | @step w' op hr hv ih =>
    rcases step_requests_cases w' op hv with h | ⟨c, rid, a, hop, hav, hc, h⟩ |
      ⟨c, rid, hop, hact2, h⟩
    · rw [h]; exact ih
    · rw [h]
      by_cases hid : id = rid
      · subst hid; simp [hc]
      · simp only [if_neg hid]; exact ih
    · rw [h]
      by_cases hid : id = rid
      · subst hid; simp
      · simp only [if_neg hid]; exact ih

/-- The only transitions a valid transaction can make on a request slot:
a `submit` on that id turning an available slot active, or a `confirm`
on that id turning an active slot back to available. -/
lemma step_requests_transition (w : World) (op : Op) (hv : op.valid) (id : Nat)
    (hne : (step w op).requests id ≠ w.requests id) :
    (∃ c a, op = Op.submit c id a ∧
      (w.requests id).caller = Pubkey.default ∧
      ((step w op).requests id).caller ≠ Pubkey.default ∧
      ((step w op).requests id).is_active = true) ∨
    (∃ c, op = Op.confirm c id ∧ (w.requests id).is_active = true ∧
      ((step w op).requests id).caller = Pubkey.default ∧
      ((step w op).requests id).is_active = false ∧
      ((step w op).requests id).balance = 0) := by
  rcases step_requests_cases w op hv with h | ⟨c, rid, a, hop, hav, hc, h⟩ |
    ⟨c, rid, hop, hact2, h⟩
  · rw [h] at hne; exact absurd rfl hne
  · by_cases hid : id = rid
    · subst hid
      left
      refine ⟨c, a, hop, hav, ?_, ?_⟩
      · rw [h]; simpa using hc
      · rw [h]; simp
    · rw [h] at hne; simp [if_neg hid] at hne
  · by_cases hid : id = rid
    · subst hid
      right
      refine ⟨c, hop, hact2, ?_, ?_, ?_⟩ <;> rw [h] <;> simp
    · rw [h] at hne; simp [if_neg hid] at hne

/-- C9: in every reachable store the two availability characterizations
coincide on every slot (`caller == zero identity` iff `is_active == false`
and `balance == 0`), and the only slot transitions a valid operation can
make are `submit` taking an available slot to active and `confirm` taking
an active slot back to available. -/
theorem request_slot_lifecycle (w : World) (hr : Reachable w) :
    (∀ id, (w.requests id).caller = Pubkey.default ↔
      ((w.requests id).is_active = false ∧ (w.requests id).balance = 0)) ∧
    (∀ op, Op.valid op → ∀ id,
      (step w op).requests id ≠ w.requests id →
      (∃ c a, op = Op.submit c id a ∧
        (w.requests id).caller = Pubkey.default ∧
        ((step w op).requests id).caller ≠ Pubkey.default ∧
        ((step w op).requests id).is_active = true) ∨
      (∃ c, op = Op.confirm c id ∧ (w.requests id).is_active = true ∧
        ((step w op).requests id).caller = Pubkey.default ∧
        ((step w op).requests id).is_active = false ∧
        ((step w op).requests id).balance = 0)) :=
  ⟨fun id => avail_inv w hr id,
   fun op hv id hne => step_requests_transition w op hv id hne⟩

theorem request_slot_lifecycle_witness :
    (Wb.requests 7).caller = Pubkey.default ↔
      ((Wb.requests 7).is_active = false ∧ (Wb.requests 7).balance = 0) :=
  (request_slot_lifecycle Wb reachable_Wb).1 7
